import Mathlib

/-!
Shallow embedding of the per-build-unit compilation lock coordinator
(`src/cargo/core/compiler/locking.rs` and `src/cargo/util/rlimit.rs`).

The embedding models:
  * `RcFileLock` (lines 438-528): the reference-counted file lock with its
    `lock`, `lock_shared`, `unlock` and `downgrade` operations.  The mutex
    serializes all operations, so each operation is a pure state transformer
    on `RcFileLockInner`; the condvar wait loop at the head of `lock` /
    `lock_shared` is modelled as an enabledness predicate (the body runs
    exactly when the wait condition is false).  OS-level effects on the file
    handle are recorded in an effect list.
  * `UnitLock` (lines 276-349): the two-file (partial / full) per-unit lock,
    with `lock_exclusive`, `lock_shared`, `downgrade` and the guard drop.
    OS lock calls that may fail are driven by an explicit `OsResult` oracle;
    the `?` early return of Rust is modelled by returning the state reached
    so far together with a failure flag.
  * `CompilationLock::lock` (lines 251-262): the acquisition order over the
    unit's own lock and its dependency locks.
  * `FileLockInterner::get_or_create_lock` (lines 393-419): the process-wide
    path-to-lock map, modelled as an association list plus a fresh-id counter
    standing for object identity of the `Arc<RcFileLock>`.
  * `determine_locking_strategy` / `determine_build_dir_locking_mode`
    (lines 112-189) together with `rlimit::get_max_file_descriptors`:
    environment facts (NFS probes, feature flag, FD limits, syscall
    outcomes) are inputs; emitted warnings and the attempted soft-limit
    raise are recorded in the result.
-/

/-- OS-level advisory lock state of one lock file handle. -/
inductive OsLock where
  | free
  | shared
  | exclusive
deriving DecidableEq, Repr

/-- The state behind the mutex of one `RcFileLock` (locking.rs lines 432-436):
the opened file handle (represented by its OS lock state), the `exclusive`
flag, and the shared reference count. -/
structure RcFileLockInner where
  osLock : OsLock
  exclusive : Bool
  share_count : Nat
deriving DecidableEq, Repr

/-- Observable effects of one `RcFileLock` operation: OS calls made on the
file handle and condition-variable broadcasts. -/
inductive LockEffect where
  | osLockExclusive
  | osLockShared
  | osUnlock
  | broadcast
deriving DecidableEq, Repr

/-- Body of `RcFileLock::lock` (locking.rs lines 439-456) after the condvar
wait loop has exited: lock the file handle exclusively and set the
`exclusive` flag. -/
def RcFileLock.lock (s : RcFileLockInner) : RcFileLockInner × List LockEffect :=
  ({ s with osLock := .exclusive, exclusive := true }, [.osLockExclusive])

/-- Body of `RcFileLock::lock_shared` (locking.rs lines 458-479) after the
condvar wait loop has exited: on the first shared holder lock the file handle
shared; otherwise just bump the count. -/
def RcFileLock.lock_shared (s : RcFileLockInner) : RcFileLockInner × List LockEffect :=
  if s.share_count = 0 then
    ({ s with osLock := .shared, share_count := 1 }, [.osLockShared])
  else
    ({ s with share_count := s.share_count + 1 }, [])

/-- `RcFileLock::unlock` (locking.rs lines 481-503): if exclusive, release the
OS lock, broadcast and clear the flag; otherwise decrement the count, and on
the last (or an unmatched) holder release the OS lock and broadcast. -/
def RcFileLock.unlock (s : RcFileLockInner) : RcFileLockInner × List LockEffect :=
  if s.exclusive then
    ({ s with osLock := .free, exclusive := false }, [.osUnlock, .broadcast])
  else if s.share_count > 1 then
    ({ s with share_count := s.share_count - 1 }, [])
  else
    ({ s with osLock := .free, share_count := 0 }, [.osUnlock, .broadcast])

/-- `RcFileLock::downgrade` (locking.rs lines 505-527): under the asserted
precondition `exclusive && share_count == 0`, re-lock the handle in shared
mode (flock converts the held exclusive lock), clear `exclusive`, set the
count to 1.  No broadcast is performed. -/
def RcFileLock.downgrade (s : RcFileLockInner) : RcFileLockInner × List LockEffect :=
  ({ s with osLock := .shared, exclusive := false, share_count := 1 }, [.osLockShared])

/-- The four serialized operations of an `RcFileLock`. -/
inductive RcOp where
  | lockOp
  | lockSharedOp
  | unlockOp
  | downgradeOp
deriving DecidableEq, Repr

/-- Apply the state-transforming part of one operation. -/
def applyRcOp (op : RcOp) (s : RcFileLockInner) : RcFileLockInner :=
  match op with
  | .lockOp => (RcFileLock.lock s).1
  | .lockSharedOp => (RcFileLock.lock_shared s).1
  | .unlockOp => (RcFileLock.unlock s).1
  | .downgradeOp => (RcFileLock.downgrade s).1

/-- When the body of an operation runs: `lock` waits while
`exclusive || share_count > 0` (line 445), `lock_shared` waits while
`exclusive` (line 464), `unlock` never waits, `downgrade` asserts
`exclusive && share_count == 0` (lines 511-512). -/
def rcOpEnabled (op : RcOp) (s : RcFileLockInner) : Prop :=
  match op with
  | .lockOp => s.exclusive = false ∧ s.share_count = 0
  | .lockSharedOp => s.exclusive = false
  | .unlockOp => True
  | .downgradeOp => s.exclusive = true ∧ s.share_count = 0

instance (op : RcOp) (s : RcFileLockInner) : Decidable (rcOpEnabled op s) := by
  cases op <;> simp [rcOpEnabled] <;> infer_instance

/-- Fold a sequence of operations over a lock state. -/
def applyRcOps : List RcOp → RcFileLockInner → RcFileLockInner
  | [], s => s
  | op :: rest, s => applyRcOps rest (applyRcOp op s)

/-- Every operation in the sequence is enabled in the state where it runs. -/
def rcOpsEnabled : List RcOp → RcFileLockInner → Prop
  | [], _ => True
  | op :: rest, s => rcOpEnabled op s ∧ rcOpsEnabled rest (applyRcOp op s)

instance : ∀ (ops : List RcOp) (s : RcFileLockInner), Decidable (rcOpsEnabled ops s)
  | [], _ => isTrue trivial
  | _ :: rest, s => by
    simp only [rcOpsEnabled]
    have := fun s' => instDecidableRcOpsEnabled rest s'
    infer_instance

/-- The `RcFileLock` invariant (spec §3 and §8): mutual exclusion of the two
holder modes, and agreement between the bookkeeping fields and the OS-level
lock state of the handle. -/
def RcInv (s : RcFileLockInner) : Prop :=
  (s.exclusive = true → s.share_count = 0) ∧
  (s.share_count > 0 → s.exclusive = false) ∧
  (s.osLock = .shared ↔ s.share_count > 0) ∧
  (s.osLock = .exclusive ↔ s.exclusive = true)

instance (s : RcFileLockInner) : Decidable (RcInv s) := by
  unfold RcInv; infer_instance

/-- A freshly created lock state, as built by the interner
(locking.rs lines 407-414): nothing held, `share_count = 0`,
`exclusive = false`. -/
def freshRcLock : RcFileLockInner :=
  { osLock := .free, exclusive := false, share_count := 0 }

/-- Outcome of a fallible OS call on the file handle. -/
inductive OsResult where
  | ok
  | err
deriving DecidableEq, Repr

/-- `RcFileLock::lock` with a fallible `inner.file.lock()` call (line 452):
on failure the `?` operator returns before `exclusive` is set, leaving the
in-process state unchanged; on success the usual body runs. -/
def RcFileLock.lockF (r : OsResult) (s : RcFileLockInner) : Option RcFileLockInner :=
  match r with
  | .ok => some (RcFileLock.lock s).1
  | .err => none

/-- `RcFileLock::lock_shared` with a fallible `inner.file.lock_shared()` call
(line 472): the OS call happens only for the first shared holder
(`share_count == 0`); on its failure the `?` returns with the state
unchanged. -/
def RcFileLock.lockSharedF (r : OsResult) (s : RcFileLockInner) : Option RcFileLockInner :=
  if s.share_count = 0 then
    match r with
    | .ok => some (RcFileLock.lock_shared s).1
    | .err => none
  else
    some (RcFileLock.lock_shared s).1

/-- What a `UnitLockGuard` (locking.rs lines 283-286) holds: the partial lock
always, the full lock when `full` is `Some`. -/
structure GuardInfo where
  holdsFull : Bool
deriving DecidableEq, Repr

/-- The shared state touched by one `UnitLock`: the interned `RcFileLock`s of
its partial and full lock paths, and the optional guard. -/
structure UnitState where
  pLock : RcFileLockInner
  fLock : RcFileLockInner
  guard : Option GuardInfo
deriving DecidableEq, Repr

/-- A build unit with no lock held and no other in-process holders of its two
lock files. -/
def unlockedUnit : UnitState :=
  { pLock := freshRcLock, fLock := freshRcLock, guard := none }

/-- `UnitLock::lock_exclusive` (locking.rs lines 306-320): lock the partial
file exclusively, then the full file exclusively; only if both succeed is the
guard installed.  `pr` and `fr` drive the two OS lock calls.  The Boolean is
the success of the call; the `UnitState` is the shared state afterwards — on
the `full.lock()?` early return the already-taken partial lock stays in the
interned `RcFileLock`. -/
def UnitLock.lock_exclusive (pr fr : OsResult) (u : UnitState) : Bool × UnitState :=
  match RcFileLock.lockF pr u.pLock with
  | none => (false, u)
  | some p =>
    match RcFileLock.lockF fr u.fLock with
    | none => (false, { u with pLock := p })
    | some f => (true, { pLock := p, fLock := f, guard := some { holdsFull := true } })

/-- The type of shared lock to take (locking.rs lines 216-224). -/
inductive SharedLockType where
  | part
  | full
deriving DecidableEq, Repr

/-- `UnitLock::lock_shared` (locking.rs lines 322-338): lock the partial file
shared; for `Full` also lock the full file shared.  On the `full` failure the
partial shared lock stays taken. -/
def UnitLock.lock_shared (ty : SharedLockType) (pr fr : OsResult) (u : UnitState) :
    Bool × UnitState :=
  match RcFileLock.lockSharedF pr u.pLock with
  | none => (false, u)
  | some p =>
    match ty with
    | .part => (true, { u with pLock := p, guard := some { holdsFull := false } })
    | .full =>
      match RcFileLock.lockSharedF fr u.fLock with
      | none => (false, { u with pLock := p })
      | some f => (true, { pLock := p, fLock := f, guard := some { holdsFull := true } })

/-- `UnitLock::downgrade` (locking.rs lines 340-348): with a guard present,
downgrade the partial lock; without one, fail with a context error. -/
def UnitLock.downgrade (u : UnitState) : Bool × UnitState :=
  match u.guard with
  | none => (false, u)
  | some _ => (true, { u with pLock := (RcFileLock.downgrade u.pLock).1 })

/-- `Drop for UnitLockGuard` (locking.rs lines 288-295): unlock the partial
lock, and the full lock when held; the guard goes away. -/
def UnitLockGuard.drop (u : UnitState) : UnitState :=
  match u.guard with
  | none => u
  | some g =>
    { pLock := (RcFileLock.unlock u.pLock).1
      fLock := if g.holdsFull then (RcFileLock.unlock u.fLock).1 else u.fLock
      guard := none }

/-- `CompilationLock::rmeta_produced` (locking.rs lines 264-273): downgrade
the lock on the unit being built. -/
def CompilationLock.rmeta_produced (u : UnitState) : Bool × UnitState :=
  UnitLock.downgrade u

/-- The logical per-unit lock states of the module table (locking.rs lines
6-12 and spec §4.4), read off the OS-level modes of the two lock files. -/
inductive UnitSt where
  | unlocked
  | readFingerprint
  | compilingRmeta
  | compilingRlib
  | sharedPart
  | sharedFull
  | invalid
deriving DecidableEq, Repr

/-- Classify a unit's logical state from the OS lock modes of its two files
(valid for a unit whose files have no other holders). -/
def unitStateOf (u : UnitState) : UnitSt :=
  match u.pLock.osLock, u.fLock.osLock with
  | .free, .free => .unlocked
  | .exclusive, .free => .readFingerprint
  | .exclusive, .exclusive => .compilingRmeta
  | .shared, .exclusive => .compilingRlib
  | .shared, .free => .sharedPart
  | .shared, .shared => .sharedFull
  | _, _ => .invalid

/-- The unit states observed along the successful `lock_exclusive` call
(locking.rs lines 306-320): before any acquisition, after `partial.lock()`,
and after `full.lock()`. -/
def lockExclusiveTrace (u : UnitState) : List UnitSt :=
  [unitStateOf u,
   unitStateOf { u with pLock := (RcFileLock.lock u.pLock).1 },
   unitStateOf { u with pLock := (RcFileLock.lock u.pLock).1,
                        fLock := (RcFileLock.lock u.fLock).1 }]

/-- Identity of a build unit (its `UnitKey`). -/
abbrev UnitKey := Nat

/-- `CompilationLock` (locking.rs lines 229-234): the unit to compile and the
vector of its dependency units.  `CompilationLock::new` (lines 237-249)
collects the vector from the `HashSet` returned by `all_dependency_units`
(lines 360-379) in unspecified iteration order; no sort is applied, so the
vector is an arbitrary enumeration of the dependency set. -/
structure CompilationLock where
  unit : UnitKey
  dependency_units : List UnitKey
deriving DecidableEq, Repr

/-- One lock acquisition performed by `CompilationLock::lock`. -/
inductive Acquisition where
  | exclusiveAcq (k : UnitKey)
  | sharedAcq (k : UnitKey)
deriving DecidableEq, Repr

/-- Acquisition sequence of `CompilationLock::lock` (locking.rs lines
251-262): `self.unit.lock_exclusive()` first, then `d.lock_shared(ty)` for
each element of `dependency_units` in vector order. -/
def CompilationLock.lockOrder (cl : CompilationLock) : List Acquisition :=
  .exclusiveAcq cl.unit :: cl.dependency_units.map .sharedAcq

/-- The keys of the shared acquisitions of a sequence, in order. -/
def sharedKeys (l : List Acquisition) : List UnitKey :=
  l.filterMap fun a =>
    match a with
    | .sharedAcq k => some k
    | .exclusiveAcq _ => none

/-- The final unit state of the C8 scenario: acquire exclusive (start
compiling), announce rmeta produced (downgrade the partial lock), then drop
the guard (release). -/
def c8FinalState : UnitState :=
  UnitLockGuard.drop
    (CompilationLock.rmeta_produced
      (UnitLock.lock_exclusive .ok .ok unlockedUnit).2).2

/-- A lock file path (`PathBuf` key of the interner map). -/
abbrev LockPath := String

/-- Process-wide interner state (locking.rs lines 382-384): the map from path
to its interned lock, modelled as an association list from path to an object
identity (a fresh id standing for one `Arc<RcFileLock>` allocation and its
opened file handle), plus the next fresh id. -/
structure InternerState where
  locks : List (LockPath × Nat)
  nextId : Nat
deriving DecidableEq, Repr

/-- `FileLockInterner::get_or_create_lock` (locking.rs lines 393-419): under
the global mutex, return the existing entry for the path when present;
otherwise open the lock file (`openOk` drives the fallible `open_file`),
allocate a fresh `RcFileLock` and insert it.  Returns the identity of the
lock handed out and the updated map, or `none` when `open_file` fails (in
which case the map is untouched). -/
def FileLockInterner.get_or_create_lock (openOk : Bool) (p : LockPath)
    (st : InternerState) : Option (Nat × InternerState) :=
  match st.locks.lookup p with
  | some id => some (id, st)
  | none =>
    if openOk then
      some (st.nextId, ⟨st.locks ++ [(p, st.nextId)], st.nextId + 1⟩)
    else
      none

/-- The locking mode for an output directory (locking.rs lines 206-214). -/
inductive LockingMode where
  | disabled
  | fine
  | coarse
deriving DecidableEq, Repr

/-- `LockingStrategy` (locking.rs lines 56-64): a mode for the artifact-dir
and an optional mode for the build-dir (absent when the two directories are
the same). -/
structure LockingStrategy where
  artifact_dir : LockingMode
  build_dir : Option LockingMode
deriving DecidableEq, Repr

/-- Environment facts consumed by the mode selection: the NFS probes of the
two directories, whether they are the same directory, the
`fine_grain_locking` feature flag, whether a `BuildContext` was supplied, the
number of units in the unit graph, and the outcomes of the rlimit calls. -/
structure LockEnv where
  artifactOnNfs : Bool
  buildOnNfs : Bool
  sameDir : Bool
  fineFlag : Bool
  bcxPresent : Bool
  totalUnits : Nat
  limitsOk : Bool
  softLimit : Nat
  hardLimit : Nat
  setLimitOk : Bool
deriving DecidableEq, Repr

/-- `safe_threshold = total_units * 10` in u64 arithmetic (locking.rs line
157; wrapping on overflow). -/
def safeThreshold (totalUnits : Nat) : Nat :=
  totalUnits * 10 % 2 ^ 64

/-- Result of `determine_build_dir_locking_mode`: the chosen mode, whether
the verbose FD warning was emitted, and the soft-limit value passed to
`set_max_file_descriptors` when a raise was attempted.  The shell call that
prints the warning is modelled as always succeeding. -/
structure BuildDirModeResult where
  mode : LockingMode
  warned : Bool
  raiseTarget : Option Nat
deriving DecidableEq, Repr

/-- `LockingStrategy::determine_build_dir_locking_mode` (locking.rs lines
147-189): `Fine` immediately under the feature flag; otherwise `Coarse` when
`get_max_file_descriptors` fails, `Fine` when the soft limit already meets
`safe_threshold`, warn-and-`Coarse` when even the hard limit is below it, and
otherwise attempt to raise the soft limit to `safe_threshold` —
`Fine` on success, warn-and-`Coarse` on failure. -/
def determine_build_dir_locking_mode (e : LockEnv) : BuildDirModeResult :=
  if e.fineFlag then ⟨.fine, false, none⟩
  else if e.limitsOk then
    if e.softLimit ≥ safeThreshold e.totalUnits then ⟨.fine, false, none⟩
    else if e.hardLimit < safeThreshold e.totalUnits then ⟨.coarse, true, none⟩
    else if e.setLimitOk then ⟨.fine, false, some (safeThreshold e.totalUnits)⟩
    else ⟨.coarse, true, some (safeThreshold e.totalUnits)⟩
  else ⟨.coarse, false, none⟩

/-- `LockingStrategy::determine_locking_strategy` (locking.rs lines 114-145):
the artifact-dir mode is `Disabled` on NFS and `Coarse` otherwise; the
build-dir slot is `none` when the directories coincide, otherwise `Disabled`
on NFS, the FD/flag-based mode when a `BuildContext` is present, and `Coarse`
without one. -/
def determine_locking_strategy (e : LockEnv) : LockingStrategy :=
  { artifact_dir := if e.artifactOnNfs then .disabled else .coarse
    build_dir :=
      if e.sameDir then none
      else some (if e.buildOnNfs then .disabled
        else if e.bcxPresent then (determine_build_dir_locking_mode e).mode
        else .coarse) }

/-- A concrete environment for C4: artifact dir not on NFS, fine-grained
locking explicitly enabled, distinct directories, ample FD limits. -/
def c4Env : LockEnv :=
  { artifactOnNfs := false, buildOnNfs := false, sameDir := false,
    fineFlag := true, bcxPresent := true, totalUnits := 1,
    limitsOk := true, softLimit := 1024, hardLimit := 4096, setLimitOk := true }

lemma rcInv_step (op : RcOp) (s : RcFileLockInner)
    (hinv : RcInv s) (hen : rcOpEnabled op s) : RcInv (applyRcOp op s) := by
  obtain ⟨h1, h2, h3, h4⟩ := hinv
  cases op with
  | lockOp =>
    obtain ⟨he, hc⟩ := hen
    simp [applyRcOp, RcFileLock.lock, RcInv, hc]
  | lockSharedOp =>
    have he : s.exclusive = false := hen
    by_cases hc : s.share_count = 0
    · simp [applyRcOp, RcFileLock.lock_shared, RcInv, hc, he]
    · have hpos : s.share_count > 0 := Nat.pos_of_ne_zero hc
      simp [applyRcOp, RcFileLock.lock_shared, RcInv, hc, he, h3.mpr hpos]
  | unlockOp =>
    by_cases he : s.exclusive = true
    · simp [applyRcOp, RcFileLock.unlock, RcInv, he, h1 he]
    · have he' : s.exclusive = false := by simpa using he
      by_cases hc : s.share_count > 1
      · have hpos : s.share_count > 0 := by omega
        have hsub : s.share_count - 1 > 0 := by omega
        have hos : s.osLock = .shared := h3.mpr hpos
        simp [applyRcOp, RcFileLock.unlock, RcInv, he', hc, hsub, hos]
      · simp [applyRcOp, RcFileLock.unlock, RcInv, he', hc]
  | downgradeOp =>
    simp [applyRcOp, RcFileLock.downgrade, RcInv]

lemma rcInv_steps (ops : List RcOp) (s : RcFileLockInner)
    (hinv : RcInv s) (hen : rcOpsEnabled ops s) : RcInv (applyRcOps ops s) := by
  induction ops generalizing s with
  | nil => exact hinv
  | cons op rest ih =>
    exact ih (applyRcOp op s) (rcInv_step op s hinv hen.1) hen.2

lemma lookup_append_self (l : List (LockPath × Nat)) (p : LockPath) (n : Nat)
    (h : l.lookup p = none) : (l ++ [(p, n)]).lookup p = some n := by
  induction l with
  | nil => simp [List.lookup]
  | cons kv rest ih =>
    rw [List.cons_append, List.lookup] at *
    by_cases hk : p == kv.1
    · simp [hk] at h
    · simp only [hk] at h ⊢
      exact ih h

lemma lookup_append_mono (l : List (LockPath × Nat)) (q p : LockPath)
    (n j : Nat) (h : l.lookup q = some j) : (l ++ [(p, n)]).lookup q = some j := by
  induction l with
  | nil => simp [List.lookup] at h
  | cons kv rest ih =>
    rw [List.cons_append, List.lookup] at *
    by_cases hk : q == kv.1
    · simpa [hk] using h
    · simp only [hk] at h ⊢
      exact ih h

/-- C6: the `RcFileLock` invariant — `exclusive` implies `share_count = 0`,
`share_count > 0` implies not `exclusive`, the OS lock is held shared iff
`share_count > 0` and exclusive iff the `exclusive` flag is set — is
preserved by every sequence of the serialized operations `lock`,
`lock_shared`, `unlock`, `downgrade`, where each operation runs only when its
wait condition (resp. asserted precondition) holds. -/
theorem c6_rc_invariant_preserved (ops : List RcOp) (s : RcFileLockInner)
    (hinv : RcInv s) (hen : rcOpsEnabled ops s) : RcInv (applyRcOps ops s) :=
  rcInv_steps ops s hinv hen

/-- Witness for C6: a concrete interleaving of all four operations starting
from a fresh lock preserves the invariant. -/
theorem c6_rc_invariant_preserved_witness :
    RcInv freshRcLock ∧
    rcOpsEnabled [.lockSharedOp, .lockSharedOp, .unlockOp, .unlockOp,
      .lockOp, .downgradeOp, .unlockOp] freshRcLock ∧
    RcInv (applyRcOps [.lockSharedOp, .lockSharedOp, .unlockOp, .unlockOp,
      .lockOp, .downgradeOp, .unlockOp] freshRcLock) :=
  ⟨by decide, by decide,
    c6_rc_invariant_preserved _ freshRcLock (by decide) (by decide)⟩

/-- C7: under the precondition `exclusive ∧ share_count = 0`,
`RcFileLock::downgrade` re-locks the handle in shared mode, sets `exclusive`
to `false` and `share_count` to `1`, and performs no condvar broadcast. -/
theorem c7_downgrade_no_broadcast (s : RcFileLockInner)
    (h : s.exclusive = true ∧ s.share_count = 0) :
    (RcFileLock.downgrade s).1.osLock = .shared ∧
    (RcFileLock.downgrade s).1.exclusive = false ∧
    (RcFileLock.downgrade s).1.share_count = 1 ∧
    (RcFileLock.downgrade s).2 = [.osLockShared] ∧
    LockEffect.broadcast ∉ (RcFileLock.downgrade s).2 := by
  simp [RcFileLock.downgrade]

/-- Witness for C7 at a concrete exclusively held lock. -/
theorem c7_downgrade_no_broadcast_witness :
    (RcFileLockInner.mk .exclusive true 0).exclusive = true ∧
    (RcFileLock.downgrade ⟨.exclusive, true, 0⟩).1.share_count = 1 ∧
    LockEffect.broadcast ∉ (RcFileLock.downgrade ⟨.exclusive, true, 0⟩).2 :=
  ⟨by decide,
    (c7_downgrade_no_broadcast ⟨.exclusive, true, 0⟩ (by decide)).2.2.1,
    (c7_downgrade_no_broadcast ⟨.exclusive, true, 0⟩ (by decide)).2.2.2.2⟩

/-- C10: calling `RcFileLock::unlock` on a lock that is not held at all
(`exclusive = false`, `share_count = 0`) is not rejected and is not a no-op:
it performs the OS unlock on the handle, leaves `share_count` at `0`, and
broadcasts the condvar. -/
theorem c10_unmatched_unlock (s : RcFileLockInner)
    (h : s.exclusive = false ∧ s.share_count = 0) :
    (RcFileLock.unlock s).2 = [.osUnlock, .broadcast] ∧
    (RcFileLock.unlock s).1.share_count = 0 ∧
    (RcFileLock.unlock s).1.exclusive = false := by
  obtain ⟨he, hc⟩ := h
  simp [RcFileLock.unlock, he, hc]

/-- Witness for C10 at a concrete unheld lock. -/
theorem c10_unmatched_unlock_witness :
    (RcFileLock.unlock freshRcLock).2 = [.osUnlock, .broadcast] ∧
    (RcFileLock.unlock freshRcLock).1.share_count = 0 :=
  ⟨(c10_unmatched_unlock freshRcLock (by decide)).1,
    (c10_unmatched_unlock freshRcLock (by decide)).2.1⟩

/-- Counterexample to C1: starting from a unit with no lock held, calling
`UnitLock::lock_exclusive` with the partial OS lock succeeding and the full
OS lock failing returns an error, yet the partial lock is still held
exclusively afterwards — the pre-call lock state is not restored. -/
theorem c1_partial_not_released :
    (UnitLock.lock_exclusive .ok .err unlockedUnit).1 = false ∧
    (UnitLock.lock_exclusive .ok .err unlockedUnit).2.pLock.exclusive = true ∧
    (UnitLock.lock_exclusive .ok .err unlockedUnit).2.pLock.osLock = .exclusive ∧
    (UnitLock.lock_exclusive .ok .err unlockedUnit).2.pLock ≠ unlockedUnit.pLock := by
  decide

/-- C1 (amended): when `UnitLock::lock_exclusive` succeeds in locking the
partial file and then fails to lock the full file, the error propagates with
the partial lock still held exclusively; the earlier-acquired lock is not
released and the pre-call state of the unit is not restored. -/
theorem c1_error_keeps_partial_lock (u : UnitState) (hg : u.guard = none)
    (hen : rcOpEnabled .lockOp u.pLock) :
    (UnitLock.lock_exclusive .ok .err u).1 = false ∧
    (UnitLock.lock_exclusive .ok .err u).2.pLock.exclusive = true ∧
    (UnitLock.lock_exclusive .ok .err u).2.pLock.osLock = .exclusive ∧
    (UnitLock.lock_exclusive .ok .err u).2.fLock = u.fLock := by
  simp [UnitLock.lock_exclusive, RcFileLock.lockF, RcFileLock.lock]

/-- Witness for the amended C1 at the concrete unlocked unit. -/
theorem c1_error_keeps_partial_lock_witness :
    unlockedUnit.guard = none ∧
    rcOpEnabled .lockOp unlockedUnit.pLock ∧
    ((UnitLock.lock_exclusive .ok .err unlockedUnit).1 = false ∧
     (UnitLock.lock_exclusive .ok .err unlockedUnit).2.pLock.exclusive = true ∧
     (UnitLock.lock_exclusive .ok .err unlockedUnit).2.pLock.osLock = .exclusive ∧
     (UnitLock.lock_exclusive .ok .err unlockedUnit).2.fLock = unlockedUnit.fLock) :=
  ⟨by decide, by decide,
    c1_error_keeps_partial_lock unlockedUnit (by decide) (by decide)⟩

/-- C3: along the acquisition of the exclusive building state
(`UnitLock::lock_exclusive` starting from the unlocked unit), any point at
which the unit is in `CompilingRmeta` (both files exclusive) is preceded by a
point in `ReadFingerprint` (partial exclusive, full not held): the unit never
goes directly from unlocked to `CompilingRmeta`. -/
theorem c3_rmeta_via_read_fingerprint (i : Nat)
    (h : i < (lockExclusiveTrace unlockedUnit).length)
    (hc : (lockExclusiveTrace unlockedUnit).get ⟨i, h⟩ = .compilingRmeta) :
    UnitSt.readFingerprint ∈ (lockExclusiveTrace unlockedUnit).take i := by
  have hlen : (lockExclusiveTrace unlockedUnit).length = 3 := by decide
  rw [hlen] at h
  interval_cases i
  · exact absurd hc (by simp [lockExclusiveTrace, unitStateOf, unlockedUnit,
      freshRcLock, RcFileLock.lock])
  · exact absurd hc (by simp [lockExclusiveTrace, unitStateOf, unlockedUnit,
      freshRcLock, RcFileLock.lock])
  · decide

/-- Witness for C3: at the final point of the trace the unit is in
`CompilingRmeta`, and `ReadFingerprint` occurs strictly earlier. -/
theorem c3_rmeta_via_read_fingerprint_witness :
    (lockExclusiveTrace unlockedUnit).get ⟨2, by decide⟩ = .compilingRmeta ∧
    UnitSt.readFingerprint ∈ (lockExclusiveTrace unlockedUnit).take 2 :=
  ⟨by decide, c3_rmeta_via_read_fingerprint 2 (by decide) (by decide)⟩

/-- C8: for a unit with no other in-process holders, the sequence
acquire-exclusive, `rmeta_produced`, release leaves both `RcFileLock`s with
`exclusive = false`, `share_count = 0` and the OS locks released, and no
guard held. -/
theorem c8_full_cycle_unlocks :
    c8FinalState.pLock.exclusive = false ∧
    c8FinalState.pLock.share_count = 0 ∧
    c8FinalState.pLock.osLock = .free ∧
    c8FinalState.fLock.exclusive = false ∧
    c8FinalState.fLock.share_count = 0 ∧
    c8FinalState.fLock.osLock = .free ∧
    c8FinalState.guard = none := by
  decide

/-- Counterexample to C2: `CompilationLock::lock` acquires the dependency
shared locks in the order of the collected vector, which is not sorted by
unit key — for the dependency vector `[2, 1]` the shared acquisitions come
out as `[2, 1]`. -/
theorem c2_deps_not_sorted :
    ¬ (sharedKeys (CompilationLock.lockOrder ⟨0, [2, 1]⟩)).Sorted (· ≤ ·) := by
  decide

/-- C2 (amended): within one `CompilationLock::lock`, the unit's own
exclusive lock is acquired first, the dependency shared locks follow in the
order of the `dependency_units` vector (no sorting by unit key is applied),
and no other exclusive acquisition occurs. -/
theorem c2_own_exclusive_first (cl : CompilationLock) :
    (CompilationLock.lockOrder cl).head? = some (.exclusiveAcq cl.unit) ∧
    sharedKeys (CompilationLock.lockOrder cl) = cl.dependency_units ∧
    ∀ k, Acquisition.exclusiveAcq k ∈ CompilationLock.lockOrder cl → k = cl.unit := by
  refine ⟨rfl, ?_, ?_⟩
  · simp only [CompilationLock.lockOrder, sharedKeys, List.filterMap_cons]
    induction cl.dependency_units with
    | nil => rfl
    | cons d rest ih => simpa using ih
  · intro k hk
    simp only [CompilationLock.lockOrder, List.mem_cons] at hk
    rcases hk with h | h
    · exact (Acquisition.exclusiveAcq.injEq _ _).mp h.symm |>.symm
    · simp only [List.mem_map] at h
      obtain ⟨d, _, hd⟩ := h
      exact absurd hd (by simp)

/-- Witness for the amended C2 on a concrete compilation lock. -/
theorem c2_own_exclusive_first_witness :
    (CompilationLock.lockOrder ⟨0, [2, 1]⟩).head? = some (.exclusiveAcq 0) ∧
    sharedKeys (CompilationLock.lockOrder ⟨0, [2, 1]⟩) = [2, 1] :=
  ⟨(c2_own_exclusive_first ⟨0, [2, 1]⟩).1,
    (c2_own_exclusive_first ⟨0, [2, 1]⟩).2.1⟩

/-- C9: `FileLockInterner::get_or_create_lock` is idempotent — once a call
for a path has returned a lock, any repeated call for that path returns the
very same lock object and leaves the map unchanged (no new lock object or
file handle is created), and no existing entry of the process-wide map is
ever removed or replaced by a call. -/
theorem c9_interner_idempotent (openOk openOk' : Bool) (p : LockPath)
    (st : InternerState) (id : Nat) (st' : InternerState)
    (h : FileLockInterner.get_or_create_lock openOk p st = some (id, st')) :
    FileLockInterner.get_or_create_lock openOk' p st' = some (id, st') ∧
    (∀ q j, st.locks.lookup q = some j → st'.locks.lookup q = some j) := by
  unfold FileLockInterner.get_or_create_lock at h
  cases hlook : st.locks.lookup p with
  | some i =>
    rw [hlook] at h
    obtain ⟨hid, hst⟩ : i = id ∧ st = st' := by
      simpa using h
    subst hid hst
    constructor
    · unfold FileLockInterner.get_or_create_lock
      rw [hlook]
    · intro q j hq
      exact hq
  | none =>
    rw [hlook] at h
    cases hok : openOk with
    | false => rw [hok] at h; simp at h
    | true =>
      rw [hok] at h
      simp only [if_true] at h
      obtain ⟨hid, hst⟩ : st.nextId = id ∧
          (⟨st.locks ++ [(p, st.nextId)], st.nextId + 1⟩ : InternerState) = st' := by
        simpa using h
      subst hid
      constructor
      · unfold FileLockInterner.get_or_create_lock
        rw [← hst]
        simp only
        rw [lookup_append_self st.locks p st.nextId hlook]
      · intro q j hq
        rw [← hst]
        exact lookup_append_mono st.locks q p st.nextId j hq

/-- Witness for C9: create a lock for a concrete path in the empty interner,
then observe that a repeated call (here with a failing `open_file`, which is
never reached) returns the same lock and the unchanged state. -/
theorem c9_interner_idempotent_witness :
    FileLockInterner.get_or_create_lock true "a.lock" ⟨[], 0⟩ =
      some (0, ⟨[("a.lock", 0)], 1⟩) ∧
    FileLockInterner.get_or_create_lock false "a.lock" ⟨[("a.lock", 0)], 1⟩ =
      some (0, ⟨[("a.lock", 0)], 1⟩) :=
  ⟨by decide, (c9_interner_idempotent true false "a.lock" ⟨[], 0⟩ 0
      ⟨[("a.lock", 0)], 1⟩ (by decide)).1⟩

/-- Counterexample to C4: with the artifact directory not on a network
filesystem and fine-grained locking explicitly enabled,
`determine_locking_strategy` still selects `Coarse` (not `Fine`) for the
artifact directory; only the build-dir slot becomes `Fine`. -/
theorem c4_artifact_dir_not_fine :
    c4Env.artifactOnNfs = false ∧ c4Env.fineFlag = true ∧
    (determine_locking_strategy c4Env).artifact_dir = .coarse ∧
    (determine_locking_strategy c4Env).artifact_dir ≠ .fine ∧
    (determine_locking_strategy c4Env).build_dir = some .fine := by
  decide

/-- C4 (amended): the feature flag never affects the artifact-dir mode —
whenever the artifact directory is not on a network filesystem,
`determine_locking_strategy` selects `Coarse` for it; `Fine` can only be
selected for the build directory. -/
theorem c4_artifact_dir_coarse (e : LockEnv) (h : e.artifactOnNfs = false) :
    (determine_locking_strategy e).artifact_dir = .coarse := by
  simp [determine_locking_strategy, h]

/-- Witness for the amended C4 at the concrete environment. -/
theorem c4_artifact_dir_coarse_witness :
    c4Env.artifactOnNfs = false ∧
    (determine_locking_strategy c4Env).artifact_dir = .coarse :=
  ⟨by decide, c4_artifact_dir_coarse c4Env (by decide)⟩

/-- C5: with the feature flag off, the FD-based selection computes
`safe_threshold = total_units * 10` and returns `Fine` when the soft limit
meets it; when the soft limit is below but the hard limit meets it, attempts
to raise the soft limit to `safe_threshold`, returning `Fine` on success and
warn-and-`Coarse` on failure; and returns `Coarse` when the hard limit is
below it (with the verbose warning) or when the limit query fails (without
it). -/
theorem c5_fd_mode_selection (e : LockEnv) (hf : e.fineFlag = false) :
    (e.limitsOk = false →
      determine_build_dir_locking_mode e = ⟨.coarse, false, none⟩) ∧
    (e.limitsOk = true → safeThreshold e.totalUnits ≤ e.softLimit →
      determine_build_dir_locking_mode e = ⟨.fine, false, none⟩) ∧
    (e.limitsOk = true → e.softLimit < safeThreshold e.totalUnits →
      e.hardLimit < safeThreshold e.totalUnits →
      determine_build_dir_locking_mode e = ⟨.coarse, true, none⟩) ∧
    (e.limitsOk = true → e.softLimit < safeThreshold e.totalUnits →
      safeThreshold e.totalUnits ≤ e.hardLimit →
      (e.setLimitOk = true → determine_build_dir_locking_mode e =
        ⟨.fine, false, some (safeThreshold e.totalUnits)⟩) ∧
      (e.setLimitOk = false → determine_build_dir_locking_mode e =
        ⟨.coarse, true, some (safeThreshold e.totalUnits)⟩)) := by
  refine ⟨?_, ?_, ?_, ?_⟩
  · intro hl
    simp [determine_build_dir_locking_mode, hf, hl]
  · intro hl hs
    simp [determine_build_dir_locking_mode, hf, hl, hs]
  · intro hl hs hh
    simp [determine_build_dir_locking_mode, hf, hl, Nat.not_le.mpr hs, hh]
  · intro hl hs hh
    constructor
    · intro hset
      simp [determine_build_dir_locking_mode, hf, hl, Nat.not_le.mpr hs,
        Nat.not_lt.mpr hh, hset]
    · intro hset
      simp [determine_build_dir_locking_mode, hf, hl, Nat.not_le.mpr hs,
        Nat.not_lt.mpr hh, hset]

/-- Witness for C5: the FD-limit fallback scenario of spec §8 — 10,000 units,
soft limit 1024, hard limit 4096 — warns and selects `Coarse`. -/
theorem c5_fd_mode_selection_witness :
    safeThreshold 10000 = 100000 ∧
    determine_build_dir_locking_mode
      ⟨false, false, false, false, true, 10000, true, 1024, 4096, true⟩ =
      ⟨.coarse, true, none⟩ :=
  ⟨by decide,
    ((c5_fd_mode_selection
        ⟨false, false, false, false, true, 10000, true, 1024, 4096, true⟩
        (by decide)).2.2.1 (by decide) (by decide) (by decide))⟩
